import Mathlib

/-!
# Verification of the os-simulator kernel

A shallow embedding of the Python sources of the `os-simulator` repository
(`src/cpu/cpu.py`, `src/kernel/kernel.py`, `src/process/process.py`,
`src/instructions/instruction.py`, `src/memory/memory.py`) together with
theorems settling the specification claims about them.

Conventions of the embedding:
* Python dictionaries become association lists (`alGet` / `alSet` / `alErase`
  mirror `d[k]`, `d[k] = v`, `del d[k]` under the unique-key discipline the
  program maintains);
* Python objects that are mutated through shared references (the `PCB`
  objects, which live simultaneously in the kernel's `pcbs` dict, the
  scheduler's `ready_queue` and `current_pcb`) are modelled with an explicit
  heap of object ids;
* Python exceptions become `Except` with an error-kind inductive;
* machine integers are `Int`/`Nat` (Python integers are unbounded, so no
  modular wrap is involved).

Important: `kernel.py` defines the class `Kernel` with two definitions of
`__init__`, `start`, `_create_initial_processes`, `handle_interrupt`,
`_handle_clock_interrupt`, `handle_exception`, the three exception handlers,
`_terminate_process`, `_schedule_and_run` and `_resume_current_process` in one
class body.  Python keeps only the later definition of each method, so the
*effective* constructor is the one at lines 321-329, which does **not**
initialize `syscall_table` or `user_privileges`.  The embedding models those
two attributes as `Option`-valued, `none` meaning "attribute never set"
(reading it raises `AttributeError`).
-/

namespace OSSim

/-- A Python runtime value as it occurs in this program: instruction operands,
register contents and memory cells are either integers or strings. -/
inductive PyVal where
  | int (i : Int)
  | str (s : String)
deriving DecidableEq, Repr

/-- Python exception kinds raised by the embedded code. -/
inductive PyErr where
  | zeroDivisionError
  | valueError
  | typeError
  | attributeError
  | indexError
  | keyError
  | recursionError
  | overflowError
deriving DecidableEq, Repr

section AList

variable {α : Type} {β : Type} [DecidableEq α]

/-- Dictionary lookup `d.get(k)` / `d[k]` on an association list. -/
def alGet : List (α × β) → α → Option β
  | [], _ => none
  | (k', v) :: t, k => if k' = k then some v else alGet t k

/-- Dictionary update `d[k] = v`: replaces the first binding of `k`, appends a
new binding if `k` is absent (Python insertion order). -/
def alSet : List (α × β) → α → β → List (α × β)
  | [], k, v => [(k, v)]
  | (k', v') :: t, k, v => if k' = k then (k, v) :: t else (k', v') :: alSet t k v

/-- Dictionary deletion `del d[k]`: removes the first binding of `k`. -/
def alErase : List (α × β) → α → List (α × β)
  | [], _ => []
  | (k', v') :: t, k => if k' = k then t else (k', v') :: alErase t k

/-- Membership test `k in d`. -/
def alHasKey (l : List (α × β)) (k : α) : Bool :=
  (alGet l k).isSome

/-- The keys of a dictionary are pairwise distinct (always true of a Python
dict; the embedding maintains it). -/
def alKeysNodup (l : List (α × β)) : Prop :=
  (l.map Prod.fst).Nodup

end AList

/-! ## Data model (`instruction.py`, `process.py`, `cpu.py`, `kernel.py`) -/

/-- `instructions/instruction.py`, class `Instruction`: immutable descriptor
with privilege `mode` ("user"/"kernel"), `opcode`, operand list, addressing
mode list and flag list.  Omitted arguments default to `[]`.  Note that the
class defines **no** attribute called `name`. -/
structure Instruction where
  mode : String
  opcode : String
  operands : List PyVal := []
  addressing_modes : List String := []
  flags : List String := []
deriving DecidableEq, Repr

/-- The saved-context dictionaries built by `cpu.py` (`raise_exception`,
`receive_hardware_interrupt`, the SYSCALL snapshot) and stored in
`PCB.context`.  A fresh PCB's context has empty register/flag dicts, pc 0 and
the cpsr determined by the process kind. -/
structure Context where
  registers : List (PyVal × PyVal)
  flags : List (PyVal × PyVal)
  pc : Nat
  cpsr : String
deriving DecidableEq, Repr

/-- `process.py`, class `KernelProcess` (the `kernel` back-reference is used
only to read `len(kernel.pcbs)`, which the embedding passes as an argument to
`getNextInstruction`). -/
structure KernelProcess where
  pid : Nat
  loop_strategy : String
  task_templates : List (String × List Instruction) := []
  current_task : Option String := none
  current_pc : Nat := 0
deriving DecidableEq, Repr

/-- The two process variants (`UserProcess` / `KernelProcess`); the code
distinguishes them with `isinstance`. -/
inductive Proc where
  | userP (pid : Nat) (instructions : List Instruction)
  | kernelP (kp : KernelProcess)
deriving DecidableEq, Repr

/-- `process.pid` for either variant. -/
def Proc.pid : Proc → Nat
  | .userP p _ => p
  | .kernelP kp => kp.pid

/-- `process.py`, class `PCB`.  The initial context of a fresh PCB contains no
`"flags"` key; `CPU.load_context` reads it with `.get("flags", {})`, which the
empty flag list models. -/
structure PCB where
  proc : Proc
  context : Context
  state : String := "ready"
  priority : Int := 1
  time_slice : Nat := 0
deriving DecidableEq, Repr

/-- `PCB.__init__`: fresh context with cpsr "user" for a `UserProcess` and
"kernel" otherwise. -/
def PCB.fresh (p : Proc) : PCB :=
  { proc := p
    context :=
      { registers := [], flags := [], pc := 0
        cpsr := match p with | .userP _ _ => "user" | .kernelP _ => "kernel" } }

/-- The two handler functions installed in `syscall_table` by the first
(shadowed) `Kernel.__init__`. -/
inductive Syscall where
  | getProcessCount
  | printMessage
deriving DecidableEq, Repr

/-- The kernel-side mutable state (`kernel.py`, effective `Kernel.__init__` at
lines 321-329, plus the scheduler's `ready_queue`).

`PCB` objects are shared mutable Python objects referenced simultaneously from
`pcbs`, `ready_queue` and `current_pcb`; the embedding therefore stores them in
an explicit `heap` keyed by object id, and `pcbs`/`ready_queue`/`current_pcb`
hold object ids.

`syscall_table` and `user_privileges` are assigned only by the *first*
`Kernel.__init__`, which the second definition in the same class body shadows;
in the effective object the attributes do not exist, modelled by `none`
(attribute access on `none` is an `AttributeError`). -/
structure KState where
  heap : List (Nat × PCB)
  pcbs : List (Nat × Nat)
  ready_queue : List Nat
  current_pcb : Option Nat
  system_time : Nat := 0
  kmemory : List (PyVal × PyVal) := []
  syscall_table : Option (List (String × Syscall)) := none
  user_privileges : Option (List (Nat × Nat)) := none
deriving DecidableEq, Repr

/-- `cpu.py`, class `CPU`: live hardware state. -/
structure CPUSt where
  registers : List (PyVal × PyVal) := []
  flags : List (PyVal × PyVal) := []
  pc : Nat := 0
  cpsr : String := "user"
  interrupt_enabled : Bool := true
deriving DecidableEq, Repr

/-- The CPU together with the kernel it delegates to (`CPU.kernel` is a
back-reference; `execute_instruction` can mutate both). -/
structure System where
  cpu : CPUSt
  kern : KState
deriving DecidableEq, Repr

/-- The exception kinds of `CPU.raise_exception` /
`Kernel.handle_exception`. -/
inductive ExcKind where
  | privilegeViolation
  | divideByZero
  | invalidInstruction
deriving DecidableEq, Repr

/-! ## Heap helpers for the shared PCB objects -/

/-- The pid of the PCB object `oid` refers to (`pcb.process.pid`).  The heap
never deletes objects, so the default-0 fallback is never exercised by
reachable states. -/
def heapPid (h : List (Nat × PCB)) (oid : Nat) : Nat :=
  match alGet h oid with
  | some pcb => pcb.proc.pid
  | none => 0

/-- The saved context of the PCB object `oid`. -/
def heapCtx (h : List (Nat × PCB)) (oid : Nat) : Option Context :=
  (alGet h oid).map PCB.context

/-- Attribute mutation `pcb.state = s` through a shared reference: updates the
object in place, no-op if the id is dangling. -/
def heapUpdState (h : List (Nat × PCB)) (oid : Nat) (s : String) : List (Nat × PCB) :=
  h.map fun p => (p.1, if p.1 = oid then { p.2 with state := s } else p.2)

/-- Attribute mutation `pcb.context = ctx` through a shared reference. -/
def heapUpdContext (h : List (Nat × PCB)) (oid : Nat) (c : Context) : List (Nat × PCB) :=
  h.map fun p => (p.1, if p.1 = oid then { p.2 with context := c } else p.2)

/-! ## Scheduler (`kernel.py`, class `Scheduler`) -/

/-- `Scheduler.add_ready_process(pcb)`: set the state to "ready" and append to
the tail of the ready queue. -/
def addReadyProcess (st : KState) (oid : Nat) : KState :=
  { st with
      heap := heapUpdState st.heap oid "ready"
      ready_queue := st.ready_queue ++ [oid] }

/-- Step 3 of `Scheduler.select_next_process`: if `current_pcb` is given and
its pid still has a live PCB, mark it ready and append it to the queue
(unconditionally — there is no membership check). -/
def requeueCurrent (st : KState) (cur : Option Nat) : KState :=
  match cur with
  | none => st
  | some oid =>
      if alHasKey st.pcbs (heapPid st.heap oid) then
        { st with
            heap := heapUpdState st.heap oid "ready"
            ready_queue := st.ready_queue ++ [oid] }
      else st

/-- Step 4 of `Scheduler.select_next_process`: pop the head, mark it running,
return it.  Every path of the source reaching the pop has a non-empty queue;
the `[]` branch is unreachable (Python would raise `IndexError` there). -/
def popReadyHead (st : KState) : Option Nat × KState :=
  match st.ready_queue with
  | [] => (none, st)
  | oid :: rest =>
      (some oid, { st with heap := heapUpdState st.heap oid "running", ready_queue := rest })

/-- `Scheduler.select_next_process(current_pcb)`:
1. prune the queue to entries whose pid is still in `kernel.pcbs`;
2. if the queue is empty, append the resident PCB `pcbs[100]` if it exists,
   otherwise return `None`;
3. if `current_pcb` is alive, mark it ready and append it;
4. pop the head, mark it running, return it. -/
def selectNextProcess (st0 : KState) (cur : Option Nat) : Option Nat × KState :=
  let st1 : KState :=
    { st0 with
        ready_queue := st0.ready_queue.filter fun oid => alHasKey st0.pcbs (heapPid st0.heap oid) }
  match st1.ready_queue with
  | [] =>
      match alGet st1.pcbs 100 with
      | none => (none, st1)
      | some r => popReadyHead (requeueCurrent (addReadyProcess st1 r) cur)
  | _ :: _ => popReadyHead (requeueCurrent st1 cur)

/-! ## Kernel exception path (`kernel.py`, effective definitions) -/

/-- `Kernel._terminate_process(pcb)` (effective definition, lines 493-504):
delete the pid from the PCB table and drop every ready-queue entry whose pid
matches.  Nothing else is reclaimed — in particular no memory-manager call is
made (the kernel never instantiates `Memory`). -/
def terminateProcess (st : KState) (oid : Nat) : KState :=
  let pid := heapPid st.heap oid
  { st with
      pcbs := alErase st.pcbs pid
      ready_queue := st.ready_queue.filter fun o => heapPid st.heap o ≠ pid }

/-- `CPU.load_context(context)`. -/
def setMode (c : CPUSt) (m : String) : CPUSt :=
  if (m = "user" ∨ m = "kernel") ∧ c.cpsr ≠ m then { c with cpsr := m } else c

/-- `CPU.load_context(context)`: overwrite registers, flags, pc, then
`set_mode(context["cpsr"])`. -/
def loadContext (c : CPUSt) (ctx : Context) : CPUSt :=
  setMode { c with registers := ctx.registers, flags := ctx.flags, pc := ctx.pc } ctx.cpsr

/-- The common body of the three effective exception handlers
(`_handle_divide_by_zero`, `_handle_privilege_violation`,
`_handle_invalid_instruction`, lines 460-491) — they differ only in the
printed message: persist `ctx` into the current PCB and terminate it, then ask
the scheduler for a replacement and load its context if one exists.  The
`data` argument of the handlers is only printed and is omitted. -/
def exceptionHandlerBody (sys : System) (ctx : Context) : System :=
  let st :=
    match sys.kern.current_pcb with
    | some oid =>
        let st := { sys.kern with heap := heapUpdContext sys.kern.heap oid ctx }
        let st := terminateProcess st oid
        { st with current_pcb := none }
    | none => sys.kern
  let sel := selectNextProcess st none
  let st := { sel.2 with current_pcb := sel.1 }
  match sel.1 with
  | some oid =>
      match heapCtx st.heap oid with
      | some c => { kern := st, cpu := loadContext sys.cpu c }
      | none => { kern := st, cpu := sys.cpu }
  | none => { kern := st, cpu := sys.cpu }

/-- `Kernel.handle_exception(exception_type, data, current_context)`:
dispatches on the kind; an unknown kind would fall through doing nothing, but
the CPU only raises the three listed kinds. -/
def handleException (sys : System) (kind : ExcKind) (ctx : Context) : System :=
  match kind with
  | .divideByZero => exceptionHandlerBody sys ctx
  | .privilegeViolation => exceptionHandlerBody sys ctx
  | .invalidInstruction => exceptionHandlerBody sys ctx

/-- `CPU.raise_exception(exception_type, data)`: snapshot the live context
(with the pre-trap cpsr), force kernel mode, delegate to
`Kernel.handle_exception`. -/
def raiseException (sys : System) (kind : ExcKind) : System :=
  let ctx : Context :=
    { registers := sys.cpu.registers, flags := sys.cpu.flags
      pc := sys.cpu.pc, cpsr := sys.cpu.cpsr }
  handleException { sys with cpu := setMode sys.cpu "kernel" } kind ctx

/-! ## System-call dispatch (`kernel.py`, `handle_syscall` and the two
handler functions; these methods are defined only once in the class body and
survive the duplication, but the attributes they read are set only by the
shadowed first `__init__`). -/

/-- Python `==` on the values of this program: `int == int` and `str == str`
compare contents; an `int` never equals a `str`. -/
def pyEq : PyVal → PyVal → Bool
  | .int i, .int j => i = j
  | .str a, .str b => a = b
  | _, _ => false

/-- Python `+` on the values of this program (`TypeError` when mixing). -/
def pyAdd : PyVal → PyVal → Except PyErr PyVal
  | .int i, .int j => .ok (.int (i + j))
  | .str a, .str b => .ok (.str (a ++ b))
  | _, _ => .error .typeError

/-- Python `//` (floor division) on the values of this program; the callers
check for a zero divisor beforehand. -/
def pyFloorDiv : PyVal → PyVal → Except PyErr PyVal
  | .int i, .int j => .ok (.int (Int.fdiv i j))
  | _, _ => .error .typeError

/-- Is this PCB's process a `UserProcess` (`isinstance(pcb.process,
UserProcess)`)? -/
def isUserProcess : Proc → Bool
  | .userP _ _ => true
  | .kernelP _ => false

/-- `Kernel._sys_get_process_count(user_context)`: identify the caller by
matching the saved pc of a user-process PCB against the syscall context, then
count processes according to `user_privileges`.  Note the Python truthiness
test `if not current_pid` also treats pid 0 as "not found". -/
def sysGetProcessCount (st : KState) (ctx : Context) : Except PyErr PyVal :=
  let found := st.pcbs.find? fun po =>
    match alGet st.heap po.2 with
    | some pcb => isUserProcess pcb.proc && pcb.context.pc = ctx.pc
    | none => false
  match found with
  | none => .ok (.int (-1))
  | some po =>
      if po.1 = 0 then .ok (.int (-1))
      else
        match st.user_privileges with
        | none => .error .attributeError
        | some privs =>
            let privilege := (alGet privs po.1).getD 0
            if privilege = 0 then
              .ok (.int ((st.pcbs.filter fun po' =>
                match alGet st.heap po'.2 with
                | some pcb => isUserProcess pcb.proc
                | none => false).length))
            else .ok (.int st.pcbs.length)

/-- `Kernel._sys_print_message(user_context)`: side-channel print, returns
0. -/
def sysPrintMessage (_st : KState) (_ctx : Context) : Except PyErr PyVal :=
  .ok (.int 0)

/-- `Kernel.handle_syscall(syscall_name, user_context)`: reading
`self.syscall_table` on the effective kernel object raises `AttributeError`
(the attribute is set only by the shadowed first `__init__`); with a table
present, an unknown name returns the error code -1 and a known name runs its
handler. -/
def handleSyscall (st : KState) (name : PyVal) (ctx : Context) : Except PyErr PyVal :=
  match st.syscall_table with
  | none => .error .attributeError
  | some tbl =>
      match name with
      | .str s =>
          match alGet tbl s with
          | none => .ok (.int (-1))
          | some .getProcessCount => sysGetProcessCount st ctx
          | some .printMessage => sysPrintMessage st ctx
      | .int _ => .ok (.int (-1))

/-- The `syscall_table` the first (shadowed) `Kernel.__init__` would have
installed. -/
def shadowedSyscallTable : List (String × Syscall) :=
  [("get_process_count", .getProcessCount), ("print_message", .printMessage)]

/-! ## CPU execution engine (`cpu.py`, `CPU.execute_instruction`) -/

/-- `CPU._resolve_operand(operand, addressing_mode)`: `register` reads the
named register (default 0), `immediate` is the literal, `memory` reads the
kernel's `memory` dict at the register-held address (default 0); any other
mode raises `ValueError`. -/
def resolveOperand (sys : System) (op : PyVal) (am : String) : Except PyErr PyVal :=
  if am = "register" then
    .ok ((alGet sys.cpu.registers op).getD (.int 0))
  else if am = "immediate" then
    .ok op
  else if am = "memory" then
    let memAddr := (alGet sys.cpu.registers op).getD (.int 0)
    .ok ((alGet sys.kern.kmemory memAddr).getD (.int 0))
  else
    .error .valueError

/-- `replace_register_content(content)` inside `execute_instruction`, used by
PRINT/LOG: `content.replace(reg, str(val))` for every register.  It raises
`AttributeError` if the operand is not a string and `TypeError` if a register
key is not a string; the produced text is print-only and irrelevant to the
machine state. -/
def replaceRegisterContentOk (sys : System) (content : PyVal) : Except PyErr Unit :=
  match content with
  | .int _ => .error .attributeError
  | .str _ =>
      if sys.cpu.registers.all fun kv => match kv.1 with | .str _ => true | .int _ => false then
        .ok ()
      else .error .typeError

/-- The `try:` body of `CPU.execute_instruction` — the `match instr.opcode`
block.  Returns the mutated system on success; on a Python exception returns
the error kind together with the system as mutated up to the raise (Python
keeps side effects performed before an exception). -/
def execBody (sys : System) (instr : Instruction) : Except (PyErr × System) System :=
  if instr.opcode = "MOV" then
    match instr.operands with
    | [dst, src] =>
        match instr.addressing_modes with
        | [_, srcMode] =>
            match resolveOperand sys src srcMode with
            | .error e => .error (e, sys)
            | .ok v =>
                .ok { sys with cpu := { sys.cpu with registers := alSet sys.cpu.registers dst v } }
        | _ => .error (.valueError, sys)
    | _ => .error (.valueError, sys)
  else if instr.opcode = "ADD" then
    match instr.operands with
    | [dst, op1, op2] =>
        match instr.addressing_modes.get? 1, instr.addressing_modes.get? 2 with
        | some am1, some am2 =>
            match resolveOperand sys op1 am1 with
            | .error e => .error (e, sys)
            | .ok v1 =>
                match resolveOperand sys op2 am2 with
                | .error e => .error (e, sys)
                | .ok v2 =>
                    match pyAdd v1 v2 with
                    | .error e => .error (e, sys)
                    | .ok v =>
                        let regs := alSet sys.cpu.registers dst v
                        let cpu := { sys.cpu with registers := regs }
                        if "CC" ∈ instr.flags then
                          let zf : PyVal :=
                            .int (if pyEq ((alGet regs dst).getD (.int 0)) (.int 0) then 1 else 0)
                          .ok { sys with
                                  cpu := { cpu with flags := alSet cpu.flags (.str "ZF") zf } }
                        else .ok { sys with cpu := cpu }
        | _, _ => .error (.indexError, sys)
    | _ => .error (.valueError, sys)
  else if instr.opcode = "DIV" then
    match instr.operands with
    | [dst, divd, divr] =>
        match instr.addressing_modes.get? 1, instr.addressing_modes.get? 2 with
        | some am1, some am2 =>
            match resolveOperand sys divd am1 with
            | .error e => .error (e, sys)
            | .ok divdVal =>
                match resolveOperand sys divr am2 with
                | .error e => .error (e, sys)
                | .ok divrVal =>
                    if pyEq divrVal (.int 0) then .error (.zeroDivisionError, sys)
                    else
                      match pyFloorDiv divdVal divrVal with
                      | .error e => .error (e, sys)
                      | .ok q =>
                          .ok { sys with
                                  cpu := { sys.cpu with
                                             registers := alSet sys.cpu.registers dst q } }
        | _, _ => .error (.indexError, sys)
    | _ => .error (.valueError, sys)
  else if instr.opcode = "SYSCALL" then
    match instr.operands with
    | [name, resultReg] =>
        let ctx : Context :=
          { registers := sys.cpu.registers, flags := sys.cpu.flags
            pc := sys.cpu.pc, cpsr := sys.cpu.cpsr }
        let sys := { sys with cpu := setMode sys.cpu "kernel" }
        match handleSyscall sys.kern name ctx with
        | .error e => .error (e, sys)
        | .ok v =>
            let cpu := { sys.cpu with registers := alSet sys.cpu.registers resultReg v }
            .ok { sys with cpu := setMode cpu "user" }
    | _ => .error (.valueError, sys)
  else if instr.opcode = "GET_PROCESS_COUNT" then
    match instr.operands with
    | [resultReg] =>
        let count : PyVal := .int sys.kern.pcbs.length
        .ok { sys with cpu := { sys.cpu with registers := alSet sys.cpu.registers resultReg count } }
    | _ => .error (.valueError, sys)
  else if instr.opcode = "PRINT" ∨ instr.opcode = "LOG" then
    match instr.operands with
    | [content] =>
        match replaceRegisterContentOk sys content with
        | .error e => .error (e, sys)
        | .ok _ => .ok sys
    | _ => .error (.valueError, sys)
  else if instr.opcode = "NOP" then
    .ok sys
  else
    .error (.valueError, sys)

/-! ## KernelProcess stepping (`process.py`) -/

/-- `KernelProcess.register_task(task_id, instructions)`: insert the template
unless the id already exists. -/
def registerTask (kp : KernelProcess) (taskId : String) (instrs : List Instruction) :
    KernelProcess :=
  if alHasKey kp.task_templates taskId then kp
  else { kp with task_templates := alSet kp.task_templates taskId instrs }

/-- `KernelProcess.wake_up(task_id)`: no-op if the task is unregistered;
otherwise set it current and reset the intra-task pc to 0. -/
def wakeUp (kp : KernelProcess) (taskId : String) : KernelProcess :=
  if ¬ alHasKey kp.task_templates taskId then kp
  else { kp with current_task := some taskId, current_pc := 0 }

/-- The idle instruction texts produced in the no-task branches. -/
def idleWaitText (pid cnt : Nat) : String :=
  "[进程" ++ toString pid ++ "] 永久等待新任务...（当前进程数：" ++ toString cnt ++ "）"

/-- The sleep instruction text of the `on_demand` no-task branch. -/
def sleepWaitText (pid cnt : Nat) : String :=
  "[进程" ++ toString pid ++ "] 休眠等待唤醒...（当前进程数：" ++ toString cnt ++ "）"

/-- `KernelProcess.get_next_instruction()` (`process.py` lines 67-98).
`pcbCount` is `len(self.kernel.pcbs)`; `fuel` bounds the self-recursion of the
task-completed branch (Python's recursion limit; exhausting it is
`RecursionError`, reachable only for an `always_loop` task with an empty
instruction list).

The crucial line is 93: `if "进程数" in instr.name` — class `Instruction`
defines no attribute `name`, so reaching a task instruction always raises
`AttributeError` before the instruction can be returned. -/
def getNextInstruction (kp : KernelProcess) (pcbCount : Nat) (fuel : Nat) :
    Except PyErr (Option Instruction × KernelProcess) :=
  match kp.current_task with
  | none =>
      if kp.loop_strategy = "always_loop" then
        .ok (some { mode := "kernel", opcode := idleWaitText kp.pid pcbCount }, kp)
      else if kp.loop_strategy = "on_demand" then
        .ok (some { mode := "kernel", opcode := sleepWaitText kp.pid pcbCount }, kp)
      else if kp.loop_strategy = "once" then
        .ok (none, kp)
      else
        -- falls through to `self.task_templates[self.current_task]` with key None
        .error .keyError
  | some task =>
      match alGet kp.task_templates task with
      | none => .error .keyError
      | some taskInstrs =>
          if kp.current_pc ≥ taskInstrs.length then
            let kp' :=
              if kp.loop_strategy = "always_loop" then { kp with current_pc := 0 }
              else { kp with current_task := none }
            match fuel with
            | 0 => .error .recursionError
            | fuel + 1 => getNextInstruction kp' pcbCount fuel
          else
            -- `instr = task_instrs[self.current_pc]` succeeds, then
            -- `instr.name` raises AttributeError: Instruction has no `name`.
            .error .attributeError

/-- `CPU.execute_instruction(instr)`: privilege pre-check, the opcode match
under `try`, exception dispatch (`ZeroDivisionError` → divide_by_zero, any
other exception → invalid_instruction), and the `pc += 1` retirement on
success.  The second component records which exception, if any, was raised to
the kernel — the observable event of the step. -/
def executeInstruction (sys : System) (instr : Instruction) : System × Option ExcKind :=
  if instr.opcode ≠ "SYSCALL" ∧ sys.cpu.cpsr = "user" ∧ instr.mode = "kernel" then
    (raiseException sys .privilegeViolation, some .privilegeViolation)
  else
    match execBody sys instr with
    | .ok sys' => ({ sys' with cpu := { sys'.cpu with pc := sys'.cpu.pc + 1 } }, none)
    | .error (.zeroDivisionError, sys') =>
        (raiseException sys' .divideByZero, some .divideByZero)
    | .error (_, sys') =>
        (raiseException sys' .invalidInstruction, some .invalidInstruction)

/-! ## Memory manager (`memory/memory.py`, class `Memory`)

The class is fully implemented but never instantiated by `kernel.py` (the
kernel's `memory` attribute is the plain dict used for memory addressing), so
its state evolves only through its own methods. -/

/-- Failure of `int.to_bytes` inside `write_memory`: a negative value or one
not representable in the requested number of bytes. -/
inductive MemErr where
  | overflowError
deriving DecidableEq, Repr

/-- Per-process virtual-memory record: `{"page_table": {vpn: pfn},
"permissions": {vpn: perm}}`. -/
structure VMSpace where
  page_table : List (Nat × Nat) := []
  permissions : List (Nat × String) := []
deriving DecidableEq, Repr

/-- `memory.py`, class `Memory`. Physical pages are byte lists (each entry in
0..255). -/
structure Memory where
  page_size : Nat
  total_physical_pages : Nat
  physical_pages : List (Nat × List Nat)
  free_page_frames : List Nat
  process_vm : List (Nat × VMSpace)
  kernel_reserved_pages : List Nat
deriving DecidableEq, Repr

/-- The bytes of `b"KERNEL_RESERVED"` (15 ASCII bytes). -/
def kernelReservedBytes : List Nat :=
  [75, 69, 82, 78, 69, 76, 95, 82, 69, 83, 69, 82, 86, 69, 68]

/-- The content `b"KERNEL_RESERVED" + b"\x00" * (page_size - 16)` of a
reserved page (Python yields an empty repetition for a negative count, which
truncated `Nat` subtraction also gives). -/
def reservedPageContent (pageSize : Nat) : List Nat :=
  kernelReservedBytes ++ List.replicate (pageSize - 16) 0

/-- The loop of `Memory._reserve_kernel_memory`: pop up to `k` head frames off
the free list, marking each page as kernel-reserved.  Returns the reserved
frame list, the remaining free list and the updated page dict. -/
def reserveLoop (k : Nat) (free : List Nat) (pages : List (Nat × List Nat))
    (pageSize : Nat) : List Nat × List Nat × List (Nat × List Nat) :=
  match k, free with
  | 0, free => ([], free, pages)
  | _ + 1, [] => ([], [], pages)
  | k + 1, pfn :: rest =>
      let res := reserveLoop k rest (alSet pages pfn (reservedPageContent pageSize)) pageSize
      (pfn :: res.1, res.2.1, res.2.2)

/-- `Memory.__init__(total_physical_pages, page_size)`: all frames free, then
`_reserve_kernel_memory` pops the first four for the kernel. -/
def initMemory (totalPhysicalPages pageSize : Nat) : Memory :=
  let res := reserveLoop 4 (List.range totalPhysicalPages) [] pageSize
  { page_size := pageSize
    total_physical_pages := totalPhysicalPages
    physical_pages := res.2.2
    free_page_frames := res.2.1
    process_vm := []
    kernel_reserved_pages := res.1 }

/-- `Memory.create_process_vm(pid)`: idempotent creation of an empty address
space. -/
def createProcessVM (m : Memory) (pid : Nat) : Memory :=
  if alHasKey m.process_vm pid then m
  else { m with process_vm := alSet m.process_vm pid {} }

/-- `Memory.allocate_physical_page(pid, vpn, permission)`: fail (`None`,
state unchanged) if the address space is unknown or no frame is free;
otherwise pop the head free frame, zero it, record the mapping and the
permission. -/
def allocatePhysicalPage (m : Memory) (pid vpn : Nat) (permission : String) :
    Option Nat × Memory :=
  match alGet m.process_vm pid with
  | none => (none, m)
  | some vm =>
      match m.free_page_frames with
      | [] => (none, m)
      | pfn :: rest =>
          let vm' : VMSpace :=
            { page_table := alSet vm.page_table vpn pfn
              permissions := alSet vm.permissions vpn permission }
          (some pfn,
            { m with
                free_page_frames := rest
                physical_pages := alSet m.physical_pages pfn (List.replicate m.page_size 0)
                process_vm := alSet m.process_vm pid vm' })

/-- `Memory.free_physical_page(pid, vpn)`: drop the mapping; return the frame
to the free list and erase its data unless it is kernel-reserved; drop the
permission entry. -/
def freePhysicalPage (m : Memory) (pid vpn : Nat) : Memory :=
  match alGet m.process_vm pid with
  | none => m
  | some vm =>
      match alGet vm.page_table vpn with
      | none => m
      | some pfn =>
          let vm' : VMSpace :=
            { page_table := alErase vm.page_table vpn
              permissions := alErase vm.permissions vpn }
          if pfn ∈ m.kernel_reserved_pages then
            { m with process_vm := alSet m.process_vm pid vm' }
          else
            { m with
                free_page_frames := m.free_page_frames ++ [pfn]
                physical_pages := alErase m.physical_pages pfn
                process_vm := alSet m.process_vm pid vm' }

/-- `Memory.translate_virtual_address(pid, virtual_addr)`: split into
vpn/offset, look up the page table, return physical address and the vpn's
permission (defaulting to "r" when no permission entry exists); `None` on
failure. -/
def translateVirtualAddress (m : Memory) (pid vaddr : Nat) : Option (Nat × String) :=
  match alGet m.process_vm pid with
  | none => none
  | some vm =>
      let vpn := vaddr / m.page_size
      let offset := vaddr % m.page_size
      match alGet vm.page_table vpn with
      | none => none
      | some pfn =>
          some (pfn * m.page_size + offset, (alGet vm.permissions vpn).getD "r")

/-- Little-endian decoding `int.from_bytes(bs, "little")`. -/
def fromBytesLE : List Nat → Nat
  | [] => 0
  | b :: bs => b + 256 * fromBytesLE bs

/-- Little-endian encoding `v.to_bytes(len, "little")` of a non-negative
value known to fit (the caller checks the `OverflowError` condition). -/
def toBytesLE : Nat → Nat → List Nat
  | 0, _ => []
  | n + 1, v => v % 256 :: toBytesLE n (v / 256)

/-- `Memory.read_memory(pid, virtual_addr, length)`: translate (note the
Python truthiness test `if not physical_addr`, so physical address 0 is also
treated as failure), check read permission, clamp the length at the page
boundary, and decode little-endian; every failure returns 0. -/
def readMemory (m : Memory) (pid vaddr len : Nat) : Nat :=
  match translateVirtualAddress m pid vaddr with
  | none => 0
  | some (physicalAddr, permission) =>
      if physicalAddr = 0 then 0
      else if permission ≠ "r" ∧ permission ≠ "rw" ∧ permission ≠ "rx" then 0
      else
        let pfn := physicalAddr / m.page_size
        match alGet m.physical_pages pfn with
        | none => 0
        | some pageData =>
            let offset := physicalAddr % m.page_size
            let len := if offset + len > m.page_size then m.page_size - offset else len
            fromBytesLE ((pageData.drop offset).take len)

/-- `Memory.write_memory(pid, virtual_addr, data, length)`: translate (with
the same truthiness caveat), require permission exactly "rw", clamp the length
at the page boundary, then `data.to_bytes(length, "little")` — which raises an
uncaught `OverflowError` when `data` is negative or does not fit in the
clamped length — and splice the bytes into the frame. -/
def writeMemory (m : Memory) (pid vaddr : Nat) (data : Int) (len : Nat) :
    Except MemErr (Bool × Memory) :=
  match translateVirtualAddress m pid vaddr with
  | none => .ok (false, m)
  | some (physicalAddr, permission) =>
      if physicalAddr = 0 then .ok (false, m)
      else if permission ≠ "rw" then .ok (false, m)
      else
        let pfn := physicalAddr / m.page_size
        match alGet m.physical_pages pfn with
        | none => .ok (false, m)
        | some pageData =>
            let offset := physicalAddr % m.page_size
            let len := if offset + len > m.page_size then m.page_size - offset else len
            if data < 0 ∨ (2 : Int) ^ (8 * len) ≤ data then .error .overflowError
            else
              let dataBytes := toBytesLE len data.toNat
              let pageData' :=
                pageData.take offset ++ dataBytes ++ pageData.drop (offset + len)
              .ok (true, { m with physical_pages := alSet m.physical_pages pfn pageData' })

/-- A write followed by a read of the same location, the composition of the
memory round-trip property: `none` when the write raises or reports failure.
-/
def writeThenRead (m : Memory) (pid vaddr : Nat) (data : Int) (len : Nat) : Option Nat :=
  match writeMemory m pid vaddr data len with
  | .ok (true, m') => some (readMemory m' pid vaddr len)
  | _ => none

/-- Exception handling seen at whole-program scope: the kernel state steps
through `Kernel.handle_exception` while any memory-manager state is carried
through untouched — `kernel.py` holds no reference to a `Memory` object (the
class is never instantiated there; the kernel's `memory` attribute is the
plain address dict), so no call site can alter it during termination. -/
def handleExceptionOS (sys : System) (kind : ExcKind) (ctx : Context) (m : Memory) :
    System × Memory :=
  (handleException sys kind ctx, m)

/-! ## Concrete states used by witnesses and counterexamples -/

/-- The kernel state produced by the effective `Kernel.__init__` (lines
321-329): empty PCB table and queue, no current process, and crucially no
`syscall_table` / `user_privileges` attributes. -/
def initKernelState : KState :=
  { heap := [], pcbs := [], ready_queue := [], current_pcb := none }

/-- An empty user-mode context. -/
def emptyContext : Context :=
  { registers := [], flags := [], pc := 0, cpsr := "user" }

/-- The first instruction of boot user process 1 of the effective
`_create_initial_processes` — `SYSCALL get_process_count, R0`. -/
def bootSyscallInstr : Instruction :=
  { mode := "user", opcode := "SYSCALL"
    operands := [.str "get_process_count", .str "R0"], flags := ["TRAP"] }

/-- The resident kernel log process (pid 100) as a PCB. -/
def residentPCB : PCB :=
  PCB.fresh (.kernelP { pid := 100, loop_strategy := "always_loop" })

/-- A running user PCB with pid 3. -/
def runningUserPCB3 : PCB :=
  { PCB.fresh (.userP 3 []) with state := "running" }

/-- A small running system: resident kernel process (pid 100, object id 0)
queued, user process pid 3 (object id 1) current, one register set. -/
def sampleSystem : System :=
  { cpu := { registers := [(.str "R0", .int 10)], flags := [], pc := 1, cpsr := "user" }
    kern :=
      { heap := [(0, residentPCB), (1, runningUserPCB3)]
        pcbs := [(100, 0), (3, 1)]
        ready_queue := [0]
        current_pcb := some 1 } }

/-- A kernel-privileged instruction (`GET_PROCESS_COUNT R10`) — boot monitor
task instruction 1. -/
def kernelOnlyInstr : Instruction :=
  { mode := "kernel", opcode := "GET_PROCESS_COUNT"
    operands := [.str "R10"], addressing_modes := ["register"] }

/-- Boot user process 2's faulting instruction — `DIV R1, R0, 0`. -/
def divZeroInstr : Instruction :=
  { mode := "user", opcode := "DIV"
    operands := [.str "R1", .str "R0", .int 0]
    addressing_modes := ["register", "register", "immediate"] }

/-- Boot user process 1's instruction 4 — `JMP 6` conditional on `NZ`
(`kernel.py` line 386, documented there as "jump to PC=6 when R2 is not
zero"). -/
def bootJmpInstr : Instruction :=
  { mode := "user", opcode := "JMP", operands := [.int 6]
    addressing_modes := ["immediate"], flags := ["NZ"] }

/-- The CPU of boot user process 1 at pc 3, right after `MOV R0,100`,
`MOV R1,200`, `ADD R2,R0,R1` with a CC update. -/
def bootUser1CPU : CPUSt :=
  { registers := [(.str "R0", .int 100), (.str "R1", .int 200), (.str "R2", .int 300)]
    flags := [(.str "ZF", .int 0)], pc := 3, cpsr := "user" }

/-- Boot user process 1 (pid 1, object id 1) running next to the resident
process, about to execute the JMP. -/
def bootUser1System : System :=
  { cpu := bootUser1CPU
    kern :=
      { heap := [(0, residentPCB), (1, { PCB.fresh (.userP 1 []) with state := "running" })]
        pcbs := [(100, 0), (1, 1)]
        ready_queue := [0]
        current_pcb := some 1 } }

/-- The boot `sys_log` kernel process (pid 100): task `sys_log` registered
with its two instructions and woken, so the task is current with intra-task
pc 0 < 2 instructions. -/
def bootLogProcess : KernelProcess :=
  wakeUp
    (registerTask { pid := 100, loop_strategy := "always_loop" } "sys_log"
      [ { mode := "kernel", opcode := "MOV", operands := [.str "R5", .int 0]
          addressing_modes := ["register", "immediate"] },
        { mode := "kernel", opcode := "LOG", operands := [.str "系统时间：R5"]
          flags := ["INFO"] } ])
    "sys_log"

/-- Two live user PCBs for the scheduler counterexample: pids 1 and 2 at
object ids 10 and 20; pid 2 is both the current process and still sitting in
the ready queue. -/
def schedCounterState : KState :=
  { heap := [(10, PCB.fresh (.userP 1 [])), (20, PCB.fresh (.userP 2 []))]
    pcbs := [(1, 10), (2, 20)]
    ready_queue := [10, 20]
    current_pcb := some 20 }

/-- A scheduler state for the amended round-robin claim: current pid 2 not
queued, pids 1 and 100 queued. -/
def schedOkState : KState :=
  { heap := [(0, residentPCB), (10, PCB.fresh (.userP 1 [])),
             (20, { PCB.fresh (.userP 2 []) with state := "running" })]
    pcbs := [(100, 0), (1, 10), (2, 20)]
    ready_queue := [0, 10]
    current_pcb := some 20 }

/-- A small memory-manager state: `Memory(8, 4)`, one process space (pid 1)
with virtual page 0 allocated read-write on physical frame 4. -/
def sampleMemory : Memory :=
  (allocatePhysicalPage (createProcessVM (initMemory 8 4) 1) 1 0 "rw").2

/-- The memory state after the frame-leaking double allocation: `Memory(8,4)`
followed by `create_process_vm(1)` and `allocate_physical_page(1, 0)` called
twice for the same virtual page. -/
def doubleAllocMemory : Memory :=
  (allocatePhysicalPage sampleMemory 1 0 "rw").2

/-- A memory-manager state holding a mapping for pid 3 — the process that
faults in `sampleSystem`: `Memory(8, 4)` with virtual page 0 of pid 3 mapped
read-write on frame 4. -/
def pid3Memory : Memory :=
  (allocatePhysicalPage (createProcessVM (initMemory 8 4) 3) 3 0 "rw").2

/-! ## Frame accounting (claim C8) -/

/-- All physical frames recorded in some process's page table. -/
def tableFrames (m : Memory) : List Nat :=
  (m.process_vm.map fun pv => pv.2.page_table.map Prod.snd).flatten

/-- The frame partition: every frame of the machine is, counting multiplicity,
exactly once in the free list, some page table, or the kernel-reserved set. -/
def framePartition (m : Memory) : Prop :=
  (m.free_page_frames ++ tableFrames m ++ m.kernel_reserved_pages : Multiset Nat) =
    (List.range m.total_physical_pages : Multiset Nat)

/-- Memory-manager states reachable from a fresh `Memory(total, page_size)`
by `create_process_vm`, `allocate_physical_page` and `free_physical_page`,
where no allocation re-maps an already-mapped virtual page (the side condition
the amended claim C8 adds). -/
inductive ReachNR : Memory → Prop where
  | init (total pageSize : Nat) : ReachNR (initMemory total pageSize)
  | create (m : Memory) (pid : Nat) : ReachNR m → ReachNR (createProcessVM m pid)
  | alloc (m : Memory) (pid vpn : Nat) (perm : String) : ReachNR m →
      (∀ vm, alGet m.process_vm pid = some vm → alGet vm.page_table vpn = none) →
      ReachNR (allocatePhysicalPage m pid vpn perm).2
  | free (m : Memory) (pid vpn : Nat) : ReachNR m → ReachNR (freePhysicalPage m pid vpn)

/-! # Theorems

All proofs about the embedded program follow; no definition appears below
this point except through the statements.  -/

section AListLemmas

variable {α : Type} {β : Type} [DecidableEq α]

@[simp] theorem alGet_nil (k : α) : alGet ([] : List (α × β)) k = none := rfl

@[simp] theorem alGet_cons (k' : α) (v : β) (t : List (α × β)) (k : α) :
    alGet ((k', v) :: t) k = if k' = k then some v else alGet t k := rfl

@[simp] theorem alSet_nil (k : α) (v : β) : alSet ([] : List (α × β)) k v = [(k, v)] := rfl

@[simp] theorem alSet_cons (k' : α) (v' : β) (t : List (α × β)) (k : α) (v : β) :
    alSet ((k', v') :: t) k v = if k' = k then (k, v) :: t else (k', v') :: alSet t k v := rfl

@[simp] theorem alErase_nil (k : α) : alErase ([] : List (α × β)) k = [] := rfl

@[simp] theorem alErase_cons (k' : α) (v' : β) (t : List (α × β)) (k : α) :
    alErase ((k', v') :: t) k = if k' = k then t else (k', v') :: alErase t k := rfl

theorem alGet_alSet_self (l : List (α × β)) (k : α) (v : β) :
    alGet (alSet l k v) k = some v := by
  induction l with
  | nil => simp [alGet, alSet]
  | cons h t ih =>
      obtain ⟨k', v'⟩ := h
      by_cases hk : k' = k <;> simp [alGet, alSet, hk, ih]

theorem alGet_alSet_ne (l : List (α × β)) (k k' : α) (v : β) (h : k' ≠ k) :
    alGet (alSet l k v) k' = alGet l k' := by
  induction l with
  | nil => simp [alGet, alSet, Ne.symm h]
  | cons hd t ih =>
      obtain ⟨k₀, v₀⟩ := hd
      by_cases hk : k₀ = k
      · subst hk
        have hne : ¬ k₀ = k' := fun hh => h (hh.symm.trans rfl)
        simp [alSet, alGet, hne, Ne.symm h]
      · simp [alSet, alGet, hk, ih]

theorem alGet_alErase_ne (l : List (α × β)) (k k' : α) (h : k' ≠ k) :
    alGet (alErase l k) k' = alGet l k' := by
  induction l with
  | nil => simp
  | cons hd t ih =>
      obtain ⟨k₀, v₀⟩ := hd
      by_cases hk : k₀ = k
      · subst hk
        have hne : ¬ k₀ = k' := fun hh => h hh.symm
        simp [alErase, alGet, hne]
      · simp [alErase, alGet, hk, ih]

theorem alGet_eq_none_of_not_mem (l : List (α × β)) (k : α)
    (h : k ∉ l.map Prod.fst) : alGet l k = none := by
  induction l with
  | nil => simp
  | cons hd t ih =>
      obtain ⟨k₀, v₀⟩ := hd
      simp only [List.map_cons, List.mem_cons, not_or] at h
      have hne : ¬ k₀ = k := fun hh => h.1 hh.symm
      simp [alGet, hne, ih h.2]

theorem alGet_alErase_self (l : List (α × β)) (k : α) (hnd : alKeysNodup l) :
    alGet (alErase l k) k = none := by
  induction l with
  | nil => simp
  | cons hd t ih =>
      obtain ⟨k₀, v₀⟩ := hd
      simp only [alKeysNodup, List.map_cons, List.nodup_cons] at hnd
      by_cases hk : k₀ = k
      · subst hk
        simp only [alErase_cons, if_pos rfl]
        exact alGet_eq_none_of_not_mem t k₀ hnd.1
      · simp only [alErase_cons, if_neg hk, alGet_cons, if_neg hk]
        exact ih hnd.2

theorem alKeys_alSet (l : List (α × β)) (k : α) (v : β) :
    (alSet l k v).map Prod.fst =
      if alHasKey l k then l.map Prod.fst else l.map Prod.fst ++ [k] := by
  induction l with
  | nil => simp [alSet, alHasKey, alGet]
  | cons hd t ih =>
      obtain ⟨k₀, v₀⟩ := hd
      by_cases hk : k₀ = k
      · subst hk
        simp [alSet, alHasKey, alGet]
      · simp only [alSet_cons, if_neg hk, List.map_cons, alHasKey, alGet_cons, if_neg hk]
        simp only [alHasKey] at ih
        by_cases hh : (alGet t k).isSome <;> simp [hh] at ih ⊢ <;> simp [ih]

end AListLemmas

theorem alGet_map_val {α β : Type} [DecidableEq α] (f : α → β → β)
    (l : List (α × β)) (k : α) :
    alGet (l.map fun p => (p.1, f p.1 p.2)) k = (alGet l k).map (f k) := by
  induction l with
  | nil => rfl
  | cons hd t ih =>
      obtain ⟨k₀, v₀⟩ := hd
      by_cases hk : k₀ = k
      · subst hk; simp [alGet]
      · simp [alGet, hk, ih]

theorem alGet_heapUpdState (h : List (Nat × PCB)) (oid : Nat) (s : String) (o : Nat) :
    alGet (heapUpdState h oid s) o =
      (alGet h o).map fun pcb => if o = oid then { pcb with state := s } else pcb := by
  simpa [heapUpdState] using
    alGet_map_val (fun k pcb => if k = oid then { pcb with state := s } else pcb) h o

theorem alGet_heapUpdContext (h : List (Nat × PCB)) (oid : Nat) (c : Context) (o : Nat) :
    alGet (heapUpdContext h oid c) o =
      (alGet h o).map fun pcb => if o = oid then { pcb with context := c } else pcb := by
  simpa [heapUpdContext] using
    alGet_map_val (fun k pcb => if k = oid then { pcb with context := c } else pcb) h o

theorem heapPid_updState (h : List (Nat × PCB)) (oid : Nat) (s : String) (o : Nat) :
    heapPid (heapUpdState h oid s) o = heapPid h o := by
  unfold heapPid
  rw [alGet_heapUpdState]
  cases alGet h o with
  | none => rfl
  | some pcb => by_cases ho : o = oid <;> simp [ho]

theorem heapPid_updContext (h : List (Nat × PCB)) (oid : Nat) (c : Context) (o : Nat) :
    heapPid (heapUpdContext h oid c) o = heapPid h o := by
  unfold heapPid
  rw [alGet_heapUpdContext]
  cases alGet h o with
  | none => rfl
  | some pcb => by_cases ho : o = oid <;> simp [ho]

theorem heapCtx_updState (h : List (Nat × PCB)) (oid : Nat) (s : String) (o : Nat) :
    heapCtx (heapUpdState h oid s) o = heapCtx h o := by
  unfold heapCtx
  rw [alGet_heapUpdState]
  cases alGet h o with
  | none => rfl
  | some pcb => by_cases ho : o = oid <;> simp [ho]

theorem heapCtx_updContext_self (h : List (Nat × PCB)) (oid : Nat) (c : Context)
    (hsome : (alGet h oid).isSome) :
    heapCtx (heapUpdContext h oid c) oid = some c := by
  unfold heapCtx
  rw [alGet_heapUpdContext]
  cases hg : alGet h oid with
  | none => rw [hg] at hsome; simp at hsome
  | some pcb => simp

/-! ## Properties of the scheduler and the exception path -/

theorem popReadyHead_pcbs (st : KState) : (popReadyHead st).2.pcbs = st.pcbs := by
  unfold popReadyHead
  cases st.ready_queue <;> rfl

theorem requeueCurrent_pcbs (st : KState) (cur : Option Nat) :
    (requeueCurrent st cur).pcbs = st.pcbs := by
  unfold requeueCurrent
  cases cur with
  | none => rfl
  | some oid => dsimp only; split <;> rfl

theorem selectNext_pcbs (st : KState) (cur : Option Nat) :
    (selectNextProcess st cur).2.pcbs = st.pcbs := by
  unfold selectNextProcess
  dsimp only
  split
  · split
    · rfl
    · rw [popReadyHead_pcbs, requeueCurrent_pcbs]; rfl
  · rw [popReadyHead_pcbs, requeueCurrent_pcbs]

theorem popReadyHead_heapCtx (st : KState) (o : Nat) :
    heapCtx (popReadyHead st).2.heap o = heapCtx st.heap o := by
  unfold popReadyHead
  cases st.ready_queue with
  | nil => rfl
  | cons h t => exact heapCtx_updState _ _ _ _

theorem requeueCurrent_heapCtx (st : KState) (cur : Option Nat) (o : Nat) :
    heapCtx (requeueCurrent st cur).heap o = heapCtx st.heap o := by
  unfold requeueCurrent
  cases cur with
  | none => rfl
  | some oid =>
      dsimp only
      split
      · exact heapCtx_updState _ _ _ _
      · rfl

theorem selectNext_heapCtx (st : KState) (cur : Option Nat) (o : Nat) :
    heapCtx (selectNextProcess st cur).2.heap o = heapCtx st.heap o := by
  unfold selectNextProcess
  dsimp only
  split
  · split
    · rfl
    · rw [popReadyHead_heapCtx, requeueCurrent_heapCtx]
      exact heapCtx_updState _ _ _ _
  · rw [popReadyHead_heapCtx, requeueCurrent_heapCtx]

theorem popReadyHead_heapPid (st : KState) (o : Nat) :
    heapPid (popReadyHead st).2.heap o = heapPid st.heap o := by
  unfold popReadyHead
  cases st.ready_queue with
  | nil => rfl
  | cons h t => exact heapPid_updState _ _ _ _

theorem requeueCurrent_heapPid (st : KState) (cur : Option Nat) (o : Nat) :
    heapPid (requeueCurrent st cur).heap o = heapPid st.heap o := by
  unfold requeueCurrent
  cases cur with
  | none => rfl
  | some oid =>
      dsimp only
      split
      · exact heapPid_updState _ _ _ _
      · rfl

theorem selectNext_heapPid (st : KState) (cur : Option Nat) (o : Nat) :
    heapPid (selectNextProcess st cur).2.heap o = heapPid st.heap o := by
  unfold selectNextProcess
  dsimp only
  split
  · split
    · rfl
    · rw [popReadyHead_heapPid, requeueCurrent_heapPid]
      exact heapPid_updState _ _ _ _
  · rw [popReadyHead_heapPid, requeueCurrent_heapPid]

/-- With no reschedule candidate, every entry still queued after
`select_next_process` was already queued before the call (the resident
fallback entry, when added, is immediately popped as the new running
process). -/
theorem selectNext_queue_sub (st : KState) (o : Nat)
    (h : o ∈ (selectNextProcess st none).2.ready_queue) : o ∈ st.ready_queue := by
  unfold selectNextProcess at h
  dsimp only at h
  revert h
  split
  · next hq =>
      split
      · intro h
        rw [hq] at h
        simp at h
      · intro h
        unfold requeueCurrent addReadyProcess popReadyHead at h
        rw [hq] at h
        simp at h
  · next a b hq =>
      intro h
      unfold requeueCurrent popReadyHead at h
      rw [hq] at h
      dsimp only at h
      have : o ∈ b := by
        cases b with
        | nil => simp at h
        | cons x xs => simpa using h
      have : o ∈ a :: b := List.mem_cons_of_mem _ this
      rw [← hq] at this
      exact (List.mem_filter.1 this).1

/-- The kernel component produced by `exceptionHandlerBody` (the final `match`
only decides whether a context is loaded into the CPU). -/
theorem exceptionHandlerBody_kern (sys : System) (ctx : Context) :
    (exceptionHandlerBody sys ctx).kern =
      (let st :=
        match sys.kern.current_pcb with
        | some oid =>
            let st := { sys.kern with heap := heapUpdContext sys.kern.heap oid ctx }
            let st := terminateProcess st oid
            { st with current_pcb := none }
        | none => sys.kern
      let sel := selectNextProcess st none
      { sel.2 with current_pcb := sel.1 }) := by
  unfold exceptionHandlerBody
  dsimp only
  split
  · split <;> rfl
  · rfl

/-- What the effective exception handlers do to the kernel state when a
process is current: its saved context becomes the interrupted context, its pid
leaves the PCB table, and no ready-queue entry for that pid survives. -/
theorem exceptionHandlerBody_spec (sys : System) (ctx : Context) (oid : Nat) (pcb : PCB)
    (hcur : sys.kern.current_pcb = some oid)
    (hheap : alGet sys.kern.heap oid = some pcb)
    (hnd : alKeysNodup sys.kern.pcbs) :
    heapCtx (exceptionHandlerBody sys ctx).kern.heap oid = some ctx ∧
    alGet (exceptionHandlerBody sys ctx).kern.pcbs pcb.proc.pid = none ∧
    ∀ o ∈ (exceptionHandlerBody sys ctx).kern.ready_queue,
      heapPid (exceptionHandlerBody sys ctx).kern.heap o ≠ pcb.proc.pid := by
  rw [exceptionHandlerBody_kern, hcur]
  dsimp only
  set st1 : KState := { sys.kern with heap := heapUpdContext sys.kern.heap oid ctx } with hst1
  have hpid1 : heapPid st1.heap oid = pcb.proc.pid := by
    rw [hst1]
    dsimp only
    rw [heapPid_updContext]
    unfold heapPid
    rw [hheap]
  set st3 : KState := { terminateProcess st1 oid with current_pcb := none } with hst3
  have hq3 : st3.ready_queue =
      st1.ready_queue.filter fun o => heapPid st1.heap o ≠ pcb.proc.pid := by
    rw [hst3]
    unfold terminateProcess
    dsimp only
    rw [hpid1]
  have hpcbs3 : st3.pcbs = alErase sys.kern.pcbs pcb.proc.pid := by
    rw [hst3]
    unfold terminateProcess
    dsimp only
    rw [hpid1]
  refine ⟨?_, ?_, ?_⟩
  · rw [selectNext_heapCtx]
    have : heapCtx st3.heap oid = heapCtx st1.heap oid := rfl
    rw [this, hst1]
    dsimp only
    exact heapCtx_updContext_self _ _ _ (by rw [hheap]; rfl)
  · rw [selectNext_pcbs, hpcbs3]
    exact alGet_alErase_self _ _ hnd
  · intro o ho
    rw [selectNext_heapPid]
    have ho3 : o ∈ st3.ready_queue := selectNext_queue_sub st3 o ho
    rw [hq3] at ho3
    have := (List.mem_filter.1 ho3).2
    simpa using this

/-- `Kernel.handle_exception` dispatches each of the three hardware-exception
kinds to a handler with the same effect. -/
theorem handleException_spec (sys : System) (kind : ExcKind) (ctx : Context)
    (oid : Nat) (pcb : PCB)
    (hcur : sys.kern.current_pcb = some oid)
    (hheap : alGet sys.kern.heap oid = some pcb)
    (hnd : alKeysNodup sys.kern.pcbs) :
    heapCtx (handleException sys kind ctx).kern.heap oid = some ctx ∧
    alGet (handleException sys kind ctx).kern.pcbs pcb.proc.pid = none ∧
    ∀ o ∈ (handleException sys kind ctx).kern.ready_queue,
      heapPid (handleException sys kind ctx).kern.heap o ≠ pcb.proc.pid := by
  cases kind <;> exact exceptionHandlerBody_spec sys ctx oid pcb hcur hheap hnd

/-- `CPU.raise_exception` snapshots the live context *before* forcing kernel
mode and hands it to the kernel, which persists it into the current PCB and
terminates that process. -/
theorem raiseException_spec (sys : System) (kind : ExcKind) (oid : Nat) (pcb : PCB)
    (hcur : sys.kern.current_pcb = some oid)
    (hheap : alGet sys.kern.heap oid = some pcb)
    (hnd : alKeysNodup sys.kern.pcbs) :
    heapCtx (raiseException sys kind).kern.heap oid =
      some { registers := sys.cpu.registers, flags := sys.cpu.flags
             pc := sys.cpu.pc, cpsr := sys.cpu.cpsr } ∧
    alGet (raiseException sys kind).kern.pcbs pcb.proc.pid = none ∧
    ∀ o ∈ (raiseException sys kind).kern.ready_queue,
      heapPid (raiseException sys kind).kern.heap o ≠ pcb.proc.pid := by
  unfold raiseException
  exact handleException_spec _ kind _ oid pcb hcur hheap hnd

/-! ## The claims -/

/-- Claim C1 (code bug).  The spec says `handle_syscall` returns the error
code -1 for an unknown syscall name instead of raising.  The surviving
`handle_syscall` method is indeed written that way, but the effective
`Kernel.__init__` — the *second* definition in the duplicated class body —
never initializes `syscall_table`, so on the living kernel object
`handle_syscall` raises `AttributeError` for every name.  When the call
arrives through a SYSCALL instruction, the CPU's blanket `except` turns this
into an invalid_instruction exception, so no -1 ever reaches the caller's
result register.  (With the shadowed table installed, the unknown-name path
would return -1, confirming the claim's intent.) -/
theorem claim_C1_unknown_syscall :
    handleSyscall initKernelState (.str "nonexistent_call") emptyContext =
      .error .attributeError ∧
    (executeInstruction { cpu := {}, kern := initKernelState } bootSyscallInstr).2 =
      some .invalidInstruction ∧
    handleSyscall { initKernelState with syscall_table := some shadowedSyscallTable }
      (.str "nonexistent_call") emptyContext = .ok (.int (-1)) :=
  ⟨rfl, rfl, rfl⟩

/-- Claim C2 (confirmed).  A user-mode CPU executing a kernel-privileged
instruction whose opcode is not SYSCALL never completes it: the step reports a
privilege_violation exception, the context persisted into the faulting PCB
still carries the un-advanced program counter and the untouched registers, and
the faulting pid is removed from both the PCB table and the ready queue. -/
theorem claim_C2_privilege_violation (sys : System) (instr : Instruction)
    (oid : Nat) (pcb : PCB)
    (hop : instr.opcode ≠ "SYSCALL")
    (hmode : sys.cpu.cpsr = "user")
    (hpriv : instr.mode = "kernel")
    (hcur : sys.kern.current_pcb = some oid)
    (hheap : alGet sys.kern.heap oid = some pcb)
    (hnd : alKeysNodup sys.kern.pcbs) :
    (executeInstruction sys instr).2 = some .privilegeViolation ∧
    heapCtx (executeInstruction sys instr).1.kern.heap oid =
      some { registers := sys.cpu.registers, flags := sys.cpu.flags
             pc := sys.cpu.pc, cpsr := sys.cpu.cpsr } ∧
    alGet (executeInstruction sys instr).1.kern.pcbs pcb.proc.pid = none ∧
    ∀ o ∈ (executeInstruction sys instr).1.kern.ready_queue,
      heapPid (executeInstruction sys instr).1.kern.heap o ≠ pcb.proc.pid := by
  have hred : executeInstruction sys instr =
      (raiseException sys .privilegeViolation, some .privilegeViolation) := by
    unfold executeInstruction
    rw [if_pos ⟨hop, hmode, hpriv⟩]
  rw [hred]
  exact ⟨rfl, raiseException_spec sys _ oid pcb hcur hheap hnd⟩

/-- Witness for C2: the kernel-only `GET_PROCESS_COUNT` instruction executed
by the running user process (pid 3) of `sampleSystem`. -/
theorem claim_C2_witness :
    (executeInstruction sampleSystem kernelOnlyInstr).2 = some .privilegeViolation ∧
    heapCtx (executeInstruction sampleSystem kernelOnlyInstr).1.kern.heap 1 =
      some { registers := sampleSystem.cpu.registers, flags := sampleSystem.cpu.flags
             pc := sampleSystem.cpu.pc, cpsr := sampleSystem.cpu.cpsr } ∧
    alGet (executeInstruction sampleSystem kernelOnlyInstr).1.kern.pcbs 3 = none ∧
    ∀ o ∈ (executeInstruction sampleSystem kernelOnlyInstr).1.kern.ready_queue,
      heapPid (executeInstruction sampleSystem kernelOnlyInstr).1.kern.heap o ≠ 3 :=
  claim_C2_privilege_violation sampleSystem kernelOnlyInstr 1 runningUserPCB3
    (by decide) rfl rfl rfl rfl (by unfold alKeysNodup; decide)

/-- Claim C3 (confirmed).  A DIV instruction whose resolved divisor is 0
raises a ZeroDivisionError before any register assignment: the step reports a
divide_by_zero exception, the context persisted into the faulting PCB carries
the registers exactly as they were before the instruction (so the destination
register keeps its prior value) and the un-advanced pc, and the faulting
process is terminated — its pid leaves the PCB table and the ready queue. -/
theorem claim_C3_div_by_zero (sys : System) (instr : Instruction)
    (dst divd divr : PyVal) (am1 am2 : String) (divdVal : PyVal)
    (oid : Nat) (pcb : PCB)
    (hopc : instr.opcode = "DIV")
    (hops : instr.operands = [dst, divd, divr])
    (ham1 : instr.addressing_modes[1]? = some am1)
    (ham2 : instr.addressing_modes[2]? = some am2)
    (hdivd : resolveOperand sys divd am1 = .ok divdVal)
    (hdivr : resolveOperand sys divr am2 = .ok (.int 0))
    (hnp : ¬ (sys.cpu.cpsr = "user" ∧ instr.mode = "kernel"))
    (hcur : sys.kern.current_pcb = some oid)
    (hheap : alGet sys.kern.heap oid = some pcb)
    (hnd : alKeysNodup sys.kern.pcbs) :
    (executeInstruction sys instr).2 = some .divideByZero ∧
    heapCtx (executeInstruction sys instr).1.kern.heap oid =
      some { registers := sys.cpu.registers, flags := sys.cpu.flags
             pc := sys.cpu.pc, cpsr := sys.cpu.cpsr } ∧
    alGet (executeInstruction sys instr).1.kern.pcbs pcb.proc.pid = none ∧
    ∀ o ∈ (executeInstruction sys instr).1.kern.ready_queue,
      heapPid (executeInstruction sys instr).1.kern.heap o ≠ pcb.proc.pid := by
  have hbody : execBody sys instr = .error (.zeroDivisionError, sys) := by
    unfold execBody
    rw [hopc, hops]
    simp [ham1, ham2, hdivd, hdivr, pyEq]
  have hred : executeInstruction sys instr =
      (raiseException sys .divideByZero, some .divideByZero) := by
    unfold executeInstruction
    rw [if_neg fun hc => hnp ⟨hc.2.1, hc.2.2⟩, hbody]
  rw [hred]
  exact ⟨rfl, raiseException_spec sys _ oid pcb hcur hheap hnd⟩

/-- Witness for C3: `DIV R1, R0, 0` executed by the running user process
(pid 3) of `sampleSystem`; R1 is absent from the registers before and in the
persisted context after. -/
theorem claim_C3_witness :
    (executeInstruction sampleSystem divZeroInstr).2 = some .divideByZero ∧
    heapCtx (executeInstruction sampleSystem divZeroInstr).1.kern.heap 1 =
      some { registers := sampleSystem.cpu.registers, flags := sampleSystem.cpu.flags
             pc := sampleSystem.cpu.pc, cpsr := sampleSystem.cpu.cpsr } ∧
    alGet (executeInstruction sampleSystem divZeroInstr).1.kern.pcbs 3 = none ∧
    ∀ o ∈ (executeInstruction sampleSystem divZeroInstr).1.kern.ready_queue,
      heapPid (executeInstruction sampleSystem divZeroInstr).1.kern.heap o ≠ 3 :=
  claim_C3_div_by_zero sampleSystem divZeroInstr (.str "R1") (.str "R0") (.int 0)
    "register" "immediate" (.int 10) 1 runningUserPCB3
    rfl rfl rfl rfl rfl rfl (by decide) rfl rfl (by unfold alKeysNodup; decide)

/-- Claim C4 (code bug).  The spec's instruction table lists JMP as a
recognized opcode performing a conditional absolute jump, and the boot code of
`kernel.py` (lines 377-391) builds user process 1 around exactly that
behavior, documenting `JMP 6 (NZ)` as "jump to PC=6 when R2 is not zero".
But `CPU.execute_instruction` has no JMP case: the instruction falls into the
unknown-opcode branch, raises `ValueError`, and is reported to the kernel as
an invalid_instruction exception — the executing process is terminated and the
pc is never set to the jump target.  Here boot user process 1 stands at pc 3
with R2 = 300 (so the NZ condition the spec describes holds), executes its JMP
and dies: the event is invalid_instruction, its PCB leaves the table and the
queue, its persisted context still shows pc 3, and the CPU ends up in the
resident process's context with pc 0, not 6. -/
theorem claim_C4_jmp_unrecognized :
    (executeInstruction bootUser1System bootJmpInstr).2 = some .invalidInstruction ∧
    heapCtx (executeInstruction bootUser1System bootJmpInstr).1.kern.heap 1 =
      some { registers := bootUser1CPU.registers, flags := bootUser1CPU.flags
             pc := 3, cpsr := "user" } ∧
    alGet (executeInstruction bootUser1System bootJmpInstr).1.kern.pcbs 1 = none ∧
    (executeInstruction bootUser1System bootJmpInstr).1.cpu.pc = 0 ∧
    (executeInstruction bootUser1System bootJmpInstr).1.cpu.pc ≠ 6 :=
  ⟨rfl, rfl, rfl, rfl, by decide⟩

/-- Claim C9 (code bug).  The spec says a `KernelProcess` with a current task
and intra-task pc below the task length returns the task's instruction at
that pc and advances the pc.  The code indexes the instruction and then
evaluates `"进程数" in instr.name` — but class `Instruction` defines no
attribute `name`, so `get_next_instruction` raises `AttributeError` instead of
returning.  Witnessed by the boot `sys_log` process, freshly woken (current
task `sys_log`, pc 0, 2 task instructions). -/
theorem claim_C9_get_next_instruction_crashes :
    bootLogProcess.current_task = some "sys_log" ∧
    bootLogProcess.current_pc = 0 ∧
    (alGet bootLogProcess.task_templates "sys_log").map List.length = some 2 ∧
    getNextInstruction bootLogProcess 5 1000 = .error .attributeError :=
  ⟨rfl, rfl, rfl, rfl⟩

/-- Counterexample to claim C5 as stated.  Handling a divide_by_zero with user
process pid 3 current does remove pid 3 from the PCB table, but the claimed
memory reclamation never happens: the kernel holds no memory manager and
`_terminate_process` makes no memory call, so pid 3's page-table entry
(vpn 0 → frame 4) and its "rw" permission entry survive the termination and
frame 4 is not returned to the free list. -/
theorem claim_C5_counterexample :
    alGet (handleExceptionOS sampleSystem .divideByZero emptyContext pid3Memory).1.kern.pcbs
      3 = none ∧
    (alGet (handleExceptionOS sampleSystem .divideByZero emptyContext pid3Memory).2.process_vm
      3).map (fun vm => alGet vm.page_table 0) = some (some 4) ∧
    (alGet (handleExceptionOS sampleSystem .divideByZero emptyContext pid3Memory).2.process_vm
      3).map (fun vm => alGet vm.permissions 0) = some (some "rw") ∧
    4 ∉ (handleExceptionOS sampleSystem .divideByZero emptyContext pid3Memory).2.free_page_frames :=
  ⟨rfl, rfl, rfl, by decide⟩

/-- Claim C5, amended (the counterexample forces dropping the memory-mapping
reclamation): for every hardware-exception kind the kernel persists the
interrupted context into the current PCB and terminates that process,
reclaiming its PCB-table entry and its ready-queue entry; the memory-manager
state is not touched at all. -/
theorem claim_C5_exception_cleanup (sys : System) (kind : ExcKind) (ctx : Context)
    (m : Memory) (oid : Nat) (pcb : PCB)
    (hcur : sys.kern.current_pcb = some oid)
    (hheap : alGet sys.kern.heap oid = some pcb)
    (hnd : alKeysNodup sys.kern.pcbs) :
    heapCtx (handleExceptionOS sys kind ctx m).1.kern.heap oid = some ctx ∧
    alGet (handleExceptionOS sys kind ctx m).1.kern.pcbs pcb.proc.pid = none ∧
    (∀ o ∈ (handleExceptionOS sys kind ctx m).1.kern.ready_queue,
      heapPid (handleExceptionOS sys kind ctx m).1.kern.heap o ≠ pcb.proc.pid) ∧
    (handleExceptionOS sys kind ctx m).2 = m := by
  obtain ⟨h1, h2, h3⟩ := handleException_spec sys kind ctx oid pcb hcur hheap hnd
  exact ⟨h1, h2, h3, rfl⟩

/-- Witness for the amended C5 at a concrete input: divide_by_zero handled
with user pid 3 current in `sampleSystem` and `pid3Memory` as the
memory-manager state. -/
theorem claim_C5_witness :
    heapCtx (handleExceptionOS sampleSystem .divideByZero emptyContext pid3Memory).1.kern.heap
      1 = some emptyContext ∧
    alGet (handleExceptionOS sampleSystem .divideByZero emptyContext pid3Memory).1.kern.pcbs
      3 = none ∧
    (∀ o ∈ (handleExceptionOS sampleSystem .divideByZero emptyContext pid3Memory).1.kern.ready_queue,
      heapPid (handleExceptionOS sampleSystem .divideByZero emptyContext pid3Memory).1.kern.heap
        o ≠ 3) ∧
    (handleExceptionOS sampleSystem .divideByZero emptyContext pid3Memory).2 = pid3Memory :=
  claim_C5_exception_cleanup sampleSystem .divideByZero emptyContext pid3Memory 1
    runningUserPCB3 rfl rfl (by unfold alKeysNodup; decide)

/-- Counterexample to claim C6 as stated.  In `schedCounterState` both user
pids 1 and 2 are alive, pid 2 is the (still-alive) current PCB *and* still has
a queue entry; `select_next_process` re-queues it unconditionally, so after
the call the ready queue holds pid 2 twice. -/
theorem claim_C6_counterexample :
    alHasKey schedCounterState.pcbs (heapPid schedCounterState.heap 20) = true ∧
    ((selectNextProcess schedCounterState (some 20)).2.ready_queue.map
      (heapPid (selectNextProcess schedCounterState (some 20)).2.heap)) = [2, 2] ∧
    ¬ ((selectNextProcess schedCounterState (some 20)).2.ready_queue.map
      (heapPid (selectNextProcess schedCounterState (some 20)).2.heap)).Nodup := by
  refine ⟨rfl, rfl, by decide⟩

theorem map_heapPid_updState (h : List (Nat × PCB)) (oid : Nat) (s : String)
    (l : List Nat) :
    l.map (heapPid (heapUpdState h oid s)) = l.map (heapPid h) :=
  List.map_congr_left fun o _ => heapPid_updState h oid s o

/-- Claim C6, amended (the counterexample forces the extra precondition that
the still-alive current PCB is not itself already queued): if the ready
queue's pids are duplicate-free and the current PCB's pid is not among them,
then after `select_next_process(current)` each pid occurs at most once in the
ready queue — including the resident-fallback case, where the current PCB is
appended twice (once as resident, once as reschedule candidate) but the head
duplicate is immediately popped as the new running process. -/
theorem claim_C6_round_robin_no_dup (st : KState) (c : Nat)
    (hnodup : (st.ready_queue.map (heapPid st.heap)).Nodup)
    (hnotq : heapPid st.heap c ∉ st.ready_queue.map (heapPid st.heap))
    (halive : alHasKey st.pcbs (heapPid st.heap c) = true) :
    ((selectNextProcess st (some c)).2.ready_queue.map
      (heapPid (selectNextProcess st (some c)).2.heap)).Nodup := by
  have hsub : List.Sublist
      ((st.ready_queue.filter fun oid => alHasKey st.pcbs (heapPid st.heap oid)).map
        (heapPid st.heap))
      (st.ready_queue.map (heapPid st.heap)) :=
    (List.filter_sublist _).map _
  have hnd1 : ((st.ready_queue.filter fun oid =>
      alHasKey st.pcbs (heapPid st.heap oid)).map (heapPid st.heap)).Nodup :=
    hnodup.sublist hsub
  have hc1 : heapPid st.heap c ∉ (st.ready_queue.filter fun oid =>
      alHasKey st.pcbs (heapPid st.heap oid)).map (heapPid st.heap) :=
    fun hmem => hnotq (hsub.subset hmem)
  unfold selectNextProcess
  dsimp only
  split
  · next hq =>
      split
      · next hres => simp [hq]
      · next r hres =>
          unfold addReadyProcess requeueCurrent popReadyHead
          simp only [hq, heapPid_updState, halive, List.nil_append, List.cons_append,
            List.nil_append, if_true]
          simp [map_heapPid_updState]
  · next h t hq =>
      unfold requeueCurrent popReadyHead
      simp only [hq, heapPid_updState, halive, List.cons_append, if_true]
      rw [hq] at hnd1 hc1
      rw [map_heapPid_updState, map_heapPid_updState, List.map_append]
      simp only [List.map_cons, List.map_nil]
      have hnd2 : (List.map (heapPid st.heap) t).Nodup :=
        (List.nodup_cons.1 (by simpa using hnd1)).2
      have hc2 : heapPid st.heap c ∉ List.map (heapPid st.heap) t :=
        fun hm => hc1 (by simp [hm])
      refine List.Nodup.append hnd2 (List.nodup_singleton _) ?_
      intro a ha hb
      rw [List.mem_singleton] at hb
      exact hc2 (hb ▸ ha)

/-- Witness for the amended C6: in `schedOkState` the current pid 2 is alive
and unqueued, the queue pids `[100, 1]` are duplicate-free, and after the call
the queue pids are still duplicate-free. -/
theorem claim_C6_witness :
    ((selectNextProcess schedOkState (some 20)).2.ready_queue.map
      (heapPid (selectNextProcess schedOkState (some 20)).2.heap)).Nodup :=
  claim_C6_round_robin_no_dup schedOkState 20 (by decide) (by decide) (by decide)

/-! ## Byte-level lemmas for the memory round trip -/

theorem length_toBytesLE (n : Nat) : ∀ v, (toBytesLE n v).length = n := by
  induction n with
  | zero => intro v; rfl
  | succ k ih => intro v; simp [toBytesLE, ih]

theorem fromBytesLE_toBytesLE (n : Nat) :
    ∀ v, v < 2 ^ (8 * n) → fromBytesLE (toBytesLE n v) = v := by
  induction n with
  | zero =>
      intro v hv
      simp only [Nat.mul_zero, pow_zero, Nat.lt_one_iff] at hv
      simp [toBytesLE, fromBytesLE, hv]
  | succ k ih =>
      intro v hv
      have hdiv : v / 256 < 2 ^ (8 * k) := by
        have h2 : (2 : Nat) ^ (8 * (k + 1)) = 2 ^ (8 * k) * 256 := by
          rw [Nat.mul_succ, pow_add]; norm_num
        rw [Nat.div_lt_iff_lt_mul (by norm_num : 0 < 256)]
        omega
      simp only [toBytesLE, fromBytesLE]
      rw [ih (v / 256) hdiv]
      exact Nat.mod_add_div v 256

/-- The address arithmetic of `translate_virtual_address` on an in-page
address. -/
theorem translate_in_page (m : Memory) (pid vpn off pfn : Nat) (vm : VMSpace)
    (hvm : alGet m.process_vm pid = some vm)
    (hpt : alGet vm.page_table vpn = some pfn)
    (hoff : off < m.page_size) :
    translateVirtualAddress m pid (vpn * m.page_size + off) =
      some (pfn * m.page_size + off, (alGet vm.permissions vpn).getD "r") := by
  have hps : 0 < m.page_size := Nat.pos_of_ne_zero fun h => by simp [h] at hoff
  have hdiv : (vpn * m.page_size + off) / m.page_size = vpn := by
    rw [mul_comm, Nat.mul_add_div hps, Nat.div_eq_of_lt hoff, Nat.add_zero]
  have hmod : (vpn * m.page_size + off) % m.page_size = off := by
    rw [mul_comm, Nat.mul_add_mod, Nat.mod_eq_of_lt hoff]
  unfold translateVirtualAddress
  rw [hvm]
  dsimp only
  rw [hdiv, hmod, hpt]

/-- Counterexample to claim C7 as stated.  In `sampleMemory` (pid 1, virtual
page 0 mapped "rw", page size 4) the virtual address 3 lies inside the page
and 256 < 2^(8·2), yet `write(1, 3, 256, 2)` followed by `read(1, 3, 2)` does
not return 256: the write clamps the length at the page boundary to 1 byte and
`to_bytes` raises an uncaught OverflowError. -/
theorem claim_C7_counterexample :
    3 < sampleMemory.page_size ∧
    256 < 2 ^ (8 * 2) ∧
    writeMemory sampleMemory 1 3 256 2 = .error .overflowError ∧
    writeThenRead sampleMemory 1 3 256 2 ≠ some 256 :=
  ⟨by decide, by decide, rfl, by decide⟩

/-- Claim C7, amended (the counterexample forces the additional requirement
`off + n ≤ page_size`, i.e. the access is not clamped at the page boundary):
for a page `(pid, vpn)` mapped "rw" on a frame with a full-size byte buffer,
writing `v < 2^(8n)` at in-page offset `off` with `off + n ≤ page_size` and
reading `n` bytes back returns `v`.  (The positivity hypotheses on the frame
number and page size hold for every allocated page: frames 0-3 are
kernel-reserved at init, so process pages live on positive frame numbers —
`translate`'s Python truthiness test `if not physical_addr` would otherwise
misfire.) -/
theorem claim_C7_round_trip (m : Memory) (pid vpn pfn off n v : Nat)
    (vm : VMSpace) (page : List Nat)
    (hvm : alGet m.process_vm pid = some vm)
    (hpt : alGet vm.page_table vpn = some pfn)
    (hperm : alGet vm.permissions vpn = some "rw")
    (hpage : alGet m.physical_pages pfn = some page)
    (hlen : page.length = m.page_size)
    (hpfn : 0 < pfn)
    (hoff : off < m.page_size)
    (hn : 0 < n)
    (hbound : off + n ≤ m.page_size)
    (hv : v < 2 ^ (8 * n)) :
    writeThenRead m pid (vpn * m.page_size + off) (v : Int) n = some v := by
  have hps : 0 < m.page_size := lt_of_le_of_lt (Nat.zero_le off) hoff
  have htr : translateVirtualAddress m pid (vpn * m.page_size + off) =
      some (pfn * m.page_size + off, "rw") := by
    rw [translate_in_page m pid vpn off pfn vm hvm hpt hoff, hperm]
    rfl
  have hpa0 : ¬ (pfn * m.page_size + off = 0) := by
    have h1 : 1 * 1 ≤ pfn * m.page_size := Nat.mul_le_mul hpfn hps
    omega
  have hdiv2 : (pfn * m.page_size + off) / m.page_size = pfn := by
    rw [mul_comm, Nat.mul_add_div hps, Nat.div_eq_of_lt hoff, Nat.add_zero]
  have hmod2 : (pfn * m.page_size + off) % m.page_size = off := by
    rw [mul_comm, Nat.mul_add_mod, Nat.mod_eq_of_lt hoff]
  have hclamp : ¬ (off + n > m.page_size) := by omega
  have hnoof : ¬ ((v : Int) < 0 ∨ (2 : Int) ^ (8 * n) ≤ (v : Int)) := by
    push_neg
    refine ⟨Int.natCast_nonneg v, ?_⟩
    exact_mod_cast hv
  have hwrite : writeMemory m pid (vpn * m.page_size + off) (v : Int) n =
      .ok (true, { m with physical_pages := alSet m.physical_pages pfn (page.take off ++ toBytesLE n v ++ page.drop (off + n)) }) := by
    unfold writeMemory
    rw [htr]
    simp only [hdiv2, hmod2, hpage, if_neg hpa0, if_neg hclamp, if_neg hnoof,
      Int.toNat_natCast]
    simp
  unfold writeThenRead
  rw [hwrite]
  dsimp only
  have htr2 : translateVirtualAddress
      { m with physical_pages := alSet m.physical_pages pfn (page.take off ++ toBytesLE n v ++ page.drop (off + n)) }
      pid (vpn * m.page_size + off) = some (pfn * m.page_size + off, "rw") := htr
  unfold readMemory
  rw [htr2]
  dsimp only
  rw [if_neg hpa0]
  simp only [hdiv2, hmod2, alGet_alSet_self, if_neg hclamp]
  have hsplit : ((page.take off ++ toBytesLE n v ++ page.drop (off + n)).drop off).take n =
      toBytesLE n v := by
    rw [List.append_assoc,
      List.drop_left' (by rw [List.length_take]; omega),
      List.take_left' (length_toBytesLE n v)]
  simp only [hsplit]
  simp [fromBytesLE_toBytesLE n v hv]

/-- Witness for the amended C7: writing 513 over 2 bytes at offset 1 of
pid 1's "rw" page in `sampleMemory` and reading it back returns 513. -/
theorem claim_C7_witness :
    writeThenRead sampleMemory 1 (0 * sampleMemory.page_size + 1) ((513 : Nat) : Int) 2 =
      some 513 :=
  claim_C7_round_trip sampleMemory 1 0 4 1 2 513
    { page_table := [(0, 4)], permissions := [(0, "rw")] } (List.replicate 4 0)
    rfl rfl rfl rfl (by decide) (by decide) (by decide) (by decide) (by decide) (by decide)

/-- Claim C10 (confirmed).  `write_memory` is not total over its documented
True/False interface: on an address mapped "rw", a negative value — or a value
that does not fit in the bytes actually written after the page-boundary clamp
`if offset + length > page_size then length = page_size - offset` — makes the
little-endian encoding step `data.to_bytes(length, "little")` raise an
uncaught OverflowError instead of returning False. -/
theorem claim_C10_write_overflow (m : Memory) (pid vpn pfn off n : Nat) (v : Int)
    (vm : VMSpace) (page : List Nat)
    (hvm : alGet m.process_vm pid = some vm)
    (hpt : alGet vm.page_table vpn = some pfn)
    (hperm : alGet vm.permissions vpn = some "rw")
    (hpage : alGet m.physical_pages pfn = some page)
    (hpfn : 0 < pfn)
    (hoff : off < m.page_size)
    (hover : v < 0 ∨
      (2 : Int) ^ (8 * (if off + n > m.page_size then m.page_size - off else n)) ≤ v) :
    writeMemory m pid (vpn * m.page_size + off) v n = .error .overflowError := by
  have hps : 0 < m.page_size := lt_of_le_of_lt (Nat.zero_le off) hoff
  have htr : translateVirtualAddress m pid (vpn * m.page_size + off) =
      some (pfn * m.page_size + off, "rw") := by
    rw [translate_in_page m pid vpn off pfn vm hvm hpt hoff, hperm]
    rfl
  have hpa0 : ¬ (pfn * m.page_size + off = 0) := by
    have h1 : 1 * 1 ≤ pfn * m.page_size := Nat.mul_le_mul hpfn hps
    omega
  have hdiv2 : (pfn * m.page_size + off) / m.page_size = pfn := by
    rw [mul_comm, Nat.mul_add_div hps, Nat.div_eq_of_lt hoff, Nat.add_zero]
  have hmod2 : (pfn * m.page_size + off) % m.page_size = off := by
    rw [mul_comm, Nat.mul_add_mod, Nat.mod_eq_of_lt hoff]
  unfold writeMemory
  rw [htr]
  simp only [hdiv2, hmod2, hpage, if_neg hpa0]
  simp only [gt_iff_lt] at hover ⊢
  rw [if_pos hover]
  simp

/-- Witness for C10: writing the negative value -5 at offset 1 of pid 1's
"rw" page in `sampleMemory` raises OverflowError. -/
theorem claim_C10_witness :
    writeMemory sampleMemory 1 (0 * sampleMemory.page_size + 1) (-5) 2 =
      .error .overflowError :=
  claim_C10_write_overflow sampleMemory 1 0 4 1 2 (-5)
    { page_table := [(0, 4)], permissions := [(0, "rw")] } (List.replicate 4 0)
    rfl rfl rfl rfl (by decide) (by decide) (Or.inl (by decide))

/-! ## Frame accounting (claim C8) -/

theorem alGet_mem {α β : Type} [DecidableEq α] (l : List (α × β)) (k : α) (v : β)
    (h : alGet l k = some v) : (k, v) ∈ l := by
  induction l with
  | nil => simp at h
  | cons hd t ih =>
      obtain ⟨k₀, v₀⟩ := hd
      by_cases hk : k₀ = k
      · subst hk
        rw [alGet_cons, if_pos rfl] at h
        injection h with h
        subst h
        exact List.mem_cons_self _ _
      · simp only [alGet_cons, if_neg hk] at h
        exact List.mem_cons_of_mem _ (ih h)

theorem alSet_eq_append {α β : Type} [DecidableEq α] (l : List (α × β)) (k : α) (v : β)
    (h : alGet l k = none) : alSet l k v = l ++ [(k, v)] := by
  induction l with
  | nil => rfl
  | cons hd t ih =>
      obtain ⟨k₀, v₀⟩ := hd
      by_cases hk : k₀ = k
      · simp [alGet, hk] at h
      · simp only [alGet_cons, if_neg hk] at h
        simp [alSet, hk, ih h]

/-- Deleting the binding `k ↦ pfn` from a page table removes exactly one
occurrence of `pfn` from its frame multiset. -/
theorem coe_map_snd_alErase (t : List (Nat × Nat)) (k pfn : Nat)
    (h : alGet t k = some pfn) :
    ((t.map Prod.snd : List Nat) : Multiset Nat) =
      pfn ::ₘ (((alErase t k).map Prod.snd : List Nat) : Multiset Nat) := by
  induction t with
  | nil => simp at h
  | cons hd t ih =>
      obtain ⟨k₀, v₀⟩ := hd
      by_cases hk : k₀ = k
      · subst hk
        rw [alGet_cons, if_pos rfl] at h
        injection h with h
        subst h
        simp [alErase]
      · simp only [alGet_cons, if_neg hk] at h
        simp only [alErase_cons, if_neg hk, List.map_cons, ← Multiset.cons_coe]
        rw [ih h]
        exact Multiset.cons_swap _ _ _

/-- Replacing the address-space record of `pid` rebalances the machine-wide
frame multiset by exactly the difference of the old and new page tables. -/
theorem coe_tableFrames_alSet (l : List (Nat × VMSpace)) (pid : Nat)
    (vm vm' : VMSpace) (h : alGet l pid = some vm) :
    ((((alSet l pid vm').map fun pv => pv.2.page_table.map Prod.snd).flatten : List Nat) :
        Multiset Nat) + ((vm.page_table.map Prod.snd : List Nat) : Multiset Nat) =
      (((l.map fun pv => pv.2.page_table.map Prod.snd).flatten : List Nat) : Multiset Nat) +
        ((vm'.page_table.map Prod.snd : List Nat) : Multiset Nat) := by
  induction l with
  | nil => simp at h
  | cons hd t ih =>
      obtain ⟨k₀, w⟩ := hd
      by_cases hk : k₀ = pid
      · subst hk
        rw [alGet_cons, if_pos rfl] at h
        injection h with h
        subst h
        rw [alSet_cons, if_pos rfl]
        simp only [List.map_cons, List.flatten_cons, ← Multiset.coe_add]
        abel
      · simp only [alGet_cons, if_neg hk] at h
        simp only [alSet_cons, if_neg hk, List.map_cons, List.flatten_cons,
          ← Multiset.coe_add]
        have := ih h
        rw [add_assoc, ih h, ← add_assoc]

theorem framePartition_card (m : Memory) (h : framePartition m) :
    m.free_page_frames.length + (tableFrames m).length + m.kernel_reserved_pages.length =
      m.total_physical_pages := by
  have h2 := congrArg Multiset.card h
  simp only [Multiset.coe_card, List.length_append, List.length_range] at h2
  omega

theorem reserveLoop_append (k : Nat) :
    ∀ (free : List Nat) (pages : List (Nat × List Nat)) (ps : Nat),
      (reserveLoop k free pages ps).1 ++ (reserveLoop k free pages ps).2.1 = free := by
  induction k with
  | zero => intro free pages ps; rfl
  | succ n ih =>
      intro free pages ps
      cases free with
      | nil => rfl
      | cons pfn rest => simp [reserveLoop, ih]

/-- A fresh `Memory(total, page_size)` satisfies the frame partition: the
reservation loop merely moves the first frames from the free list to the
kernel-reserved list. -/
theorem framePartition_init (total ps : Nat) : framePartition (initMemory total ps) := by
  unfold framePartition initMemory tableFrames
  dsimp only
  rw [Multiset.coe_eq_coe]
  have h := reserveLoop_append 4 (List.range total) [] ps
  simp only [List.map_nil, List.flatten_nil, List.append_nil]
  exact List.perm_append_comm.trans (by rw [h])

theorem framePartition_create (m : Memory) (pid : Nat) (hp : framePartition m) :
    framePartition (createProcessVM m pid) := by
  unfold createProcessVM
  split
  · exact hp
  · next hkey =>
      have hnone : alGet m.process_vm pid = none := by
        unfold alHasKey at hkey
        exact Option.not_isSome_iff_eq_none.1 (by simpa using hkey)
      unfold framePartition tableFrames at hp ⊢
      dsimp only
      rw [alSet_eq_append _ _ _ hnone]
      simpa using hp

theorem framePartition_alloc (m : Memory) (pid vpn : Nat) (perm : String)
    (hp : framePartition m)
    (hun : ∀ vm, alGet m.process_vm pid = some vm → alGet vm.page_table vpn = none) :
    framePartition (allocatePhysicalPage m pid vpn perm).2 := by
  unfold allocatePhysicalPage
  split
  · exact hp
  · next vm hvm =>
      split
      · exact hp
      · next pfn rest hfree =>
          dsimp only
          have htab : alGet vm.page_table vpn = none := hun vm hvm
          have hkey := coe_tableFrames_alSet m.process_vm pid vm
            { page_table := alSet vm.page_table vpn pfn
              permissions := alSet vm.permissions vpn perm } hvm
          unfold framePartition tableFrames at hp ⊢
          dsimp only
          rw [hfree] at hp
          simp only [← Multiset.coe_add, ← Multiset.cons_coe, ← Multiset.singleton_add]
            at hp ⊢
          set TF : Multiset Nat :=
            (((m.process_vm.map fun pv => pv.2.page_table.map Prod.snd).flatten : List Nat) :
              Multiset Nat) with hTFdef
          set TF2 : Multiset Nat :=
            ((((alSet m.process_vm pid
              { page_table := alSet vm.page_table vpn pfn
                permissions := alSet vm.permissions vpn perm }).map fun pv =>
                  pv.2.page_table.map Prod.snd).flatten : List Nat) : Multiset Nat) with hTF2def
          set V : Multiset Nat := ((vm.page_table.map Prod.snd : List Nat) : Multiset Nat)
            with hVdef
          have hV2 : (((alSet vm.page_table vpn pfn).map Prod.snd : List Nat) :
              Multiset Nat) = V + {pfn} := by
            rw [alSet_eq_append _ _ _ htab]
            simp only [List.map_append, List.map_cons, List.map_nil, ← Multiset.coe_add,
              Multiset.coe_singleton, hVdef]
          rw [hV2] at hkey
          have hTF2 : TF2 = TF + {pfn} := by
            have h2 : TF2 + V = TF + {pfn} + V := by rw [hkey]; abel
            exact add_right_cancel h2
          rw [← hp, hTF2]
          abel

theorem framePartition_free (m : Memory) (pid vpn : Nat) (hp : framePartition m) :
    framePartition (freePhysicalPage m pid vpn) := by
  unfold freePhysicalPage
  split
  · exact hp
  · next vm hvm =>
      split
      · exact hp
      · next pfn hpt =>
          have hmemTF : pfn ∈ tableFrames m := by
            unfold tableFrames
            exact List.mem_flatten.2
              ⟨vm.page_table.map Prod.snd,
               List.mem_map_of_mem _ (alGet_mem _ _ _ hvm),
               List.mem_map_of_mem Prod.snd (alGet_mem _ _ _ hpt)⟩
          -- the kernel-reserved branch is unreachable: a frame recorded in a
          -- page table cannot also be kernel-reserved, by the partition
          have hres : pfn ∉ m.kernel_reserved_pages := by
            intro hin
            have hcount := congrArg (Multiset.count pfn) hp
            unfold framePartition at hcount
            simp only [← Multiset.coe_add, Multiset.count_add] at hcount
            have hr1 : Multiset.count pfn
                ((List.range m.total_physical_pages : List Nat) : Multiset Nat) ≤ 1 :=
              Multiset.nodup_iff_count_le_one.1
                (Multiset.coe_nodup.2 (List.nodup_range _)) pfn
            have hTFc : 1 ≤ Multiset.count pfn ((tableFrames m : List Nat) : Multiset Nat) :=
              Multiset.one_le_count_iff_mem.2 (Multiset.mem_coe.2 hmemTF)
            have hRc : 1 ≤ Multiset.count pfn
                ((m.kernel_reserved_pages : List Nat) : Multiset Nat) :=
              Multiset.one_le_count_iff_mem.2 (Multiset.mem_coe.2 hin)
            omega
          rw [if_neg hres]
          have hkey := coe_tableFrames_alSet m.process_vm pid vm
            { page_table := alErase vm.page_table vpn
              permissions := alErase vm.permissions vpn } hvm
          unfold framePartition tableFrames at hp ⊢
          dsimp only
          simp only [← Multiset.coe_add, ← Multiset.singleton_add, Multiset.coe_singleton]
            at hp ⊢
          set TF : Multiset Nat :=
            (((m.process_vm.map fun pv => pv.2.page_table.map Prod.snd).flatten : List Nat) :
              Multiset Nat) with hTFdef
          set TF2 : Multiset Nat :=
            ((((alSet m.process_vm pid
              { page_table := alErase vm.page_table vpn
                permissions := alErase vm.permissions vpn }).map fun pv =>
                  pv.2.page_table.map Prod.snd).flatten : List Nat) : Multiset Nat) with hTF2def
          set E : Multiset Nat :=
            ((((alErase vm.page_table vpn).map Prod.snd : List Nat)) : Multiset Nat) with hEdef
          have hV : ((vm.page_table.map Prod.snd : List Nat) : Multiset Nat) =
              {pfn} + E := by
            rw [coe_map_snd_alErase vm.page_table vpn pfn hpt, ← Multiset.singleton_add, hEdef]
          rw [hV] at hkey
          have hTF : TF = TF2 + {pfn} := by
            have h2 : TF2 + {pfn} + E = TF + E := by rw [← hkey]; abel
            exact (add_right_cancel h2).symm
          rw [← hp, hTF]
          abel

/-- The frame partition holds in every state reachable without re-mapping an
already-mapped virtual page. -/
theorem reachNR_framePartition (m : Memory) (h : ReachNR m) : framePartition m := by
  induction h with
  | init total ps => exact framePartition_init total ps
  | create m pid _ ih => exact framePartition_create m pid ih
  | alloc m pid vpn perm _ hun ih => exact framePartition_alloc m pid vpn perm ih hun
  | free m pid vpn _ ih => exact framePartition_free m pid vpn ih

/-- Counterexample to claim C8 as stated.  The sequence `Memory(8, 4)`,
`create_process_vm(1)`, `allocate_physical_page(1, 0, "rw")` twice — a legal
call sequence of the three operations — leaks a frame: the second allocation
overwrites the page-table entry `0 ↦ 4` with `0 ↦ 5`, leaving frame 4 in no
free list, no page table and no reserved set, so
free + allocated + reserved = 2 + 1 + 4 = 7 ≠ 8 = total and the partition
fails. -/
theorem claim_C8_counterexample :
    doubleAllocMemory.free_page_frames.length + (tableFrames doubleAllocMemory).length +
        doubleAllocMemory.kernel_reserved_pages.length ≠
      doubleAllocMemory.total_physical_pages ∧
    ¬ framePartition doubleAllocMemory := by
  constructor
  · decide
  · unfold framePartition
    decide

/-- Claim C8, amended (the counterexample forces the side condition that
`allocate_physical_page` is never called on an already-mapped `(pid, vpn)`):
in every state reachable by `create_process_vm` / `allocate_physical_page` /
`free_physical_page` under that discipline, the machine's frames split
exactly — counting multiplicity — into the free list, the page tables and the
kernel-reserved set (`framePartition`, a multiset equality with the
duplicate-free list of all frames), and in particular
free + allocated + reserved = total. -/
theorem claim_C8_frame_conservation (m : Memory) (h : ReachNR m) :
    framePartition m ∧
    m.free_page_frames.length + (tableFrames m).length + m.kernel_reserved_pages.length =
      m.total_physical_pages :=
  ⟨reachNR_framePartition m h,
   framePartition_card m (reachNR_framePartition m h)⟩

/-- Witness for the amended C8 at a concrete reachable state:
`Memory(8, 4)`; `create_process_vm(1)`; `allocate_physical_page(1, 0, "rw")`
(virtual page 0 was unmapped); `free_physical_page(1, 0)`. -/
theorem claim_C8_witness :
    framePartition (freePhysicalPage sampleMemory 1 0) ∧
    (freePhysicalPage sampleMemory 1 0).free_page_frames.length +
        (tableFrames (freePhysicalPage sampleMemory 1 0)).length +
        (freePhysicalPage sampleMemory 1 0).kernel_reserved_pages.length =
      (freePhysicalPage sampleMemory 1 0).total_physical_pages :=
  claim_C8_frame_conservation (freePhysicalPage sampleMemory 1 0)
    (ReachNR.free sampleMemory 1 0
      (ReachNR.alloc (createProcessVM (initMemory 8 4) 1) 1 0 "rw"
        (ReachNR.create (initMemory 8 4) 1 (ReachNR.init 8 4))
        (fun vm hv => by
          have h0 : (some { page_table := [], permissions := [] } : Option VMSpace) =
              some vm :=
            (rfl : alGet (createProcessVM (initMemory 8 4) 1).process_vm 1 =
              some { page_table := [], permissions := [] }).symm.trans hv
          rw [← Option.some.inj h0]
          rfl)))

end OSSim
